import Mathlib

/-!
# Verification of the weighted-auto-trader dashboard frontend

Shallow embedding of the state-manipulating logic of the browser dashboard
(`src/frontend/src`): the dashboard page's WebSocket message handler, the
signal-dismiss handler, the order modal's validation and reset logic, the
WebSocket hook's connection state machine, and the backtest page's error
fallback.  JavaScript numbers are modelled as `ℚ` (none of the verified
logic depends on floating-point rounding), strings as `String`, arrays as
`List`, and partial JSON payloads as records of `Option` fields.
-/

namespace WeightedTrader

/-! ## Type declarations (src/frontend/src/types/index.ts) -/

/-- Trading style enum (`TradingStyle` in types/index.ts). -/
inductive TradingStyle
  | SCALPING
  | DAYTRADING
  | SWING
  deriving DecidableEq, Repr

/-- Signal class enum (`SignalType` in types/index.ts). -/
inductive SignalType
  | STRONG_BUY
  | BUY
  | WATCH
  | HOLD
  | SELL
  deriving DecidableEq, Repr

/-- Quote record (`Quote` in types/index.ts).  The source field `open` is
named `openPrice` here because `open` is a Lean keyword. -/
structure Quote where
  stock_code : String
  name : String
  price : ℚ
  change : ℚ
  change_rate : ℚ
  volume : ℚ
  high : ℚ
  low : ℚ
  openPrice : ℚ
  prev_close : ℚ
  timestamp : String
  deriving DecidableEq, Repr

/-- A well-formed `stock_update` payload (`message.data` in page.tsx):
a partial quote patch keyed by `stock_code`.  `stock_code` is always
present (the handler matches on it); every other quote field is optional,
`none` meaning the field is absent from the JSON payload. -/
structure QuotePatch where
  stock_code : String
  name : Option String
  price : Option ℚ
  change : Option ℚ
  change_rate : Option ℚ
  volume : Option ℚ
  high : Option ℚ
  low : Option ℚ
  openPrice : Option ℚ
  prev_close : Option ℚ
  timestamp : Option String
  deriving DecidableEq, Repr

/-- The empty patch carrying only a stock code: every optional field absent. -/
def QuotePatch.onlyCode (code : String) : QuotePatch :=
  { stock_code := code, name := none, price := none, change := none,
    change_rate := none, volume := none, high := none, low := none,
    openPrice := none, prev_close := none, timestamp := none }

/-- A patch carrying only a stock code and a price. -/
def QuotePatch.codePrice (code : String) (p : ℚ) : QuotePatch :=
  { QuotePatch.onlyCode code with price := some p }

/-- JavaScript object spread `{ ...q, ...p }` (page.tsx line 51): every
field present in the patch replaces the quote's field; absent fields keep
the quote's previous value. -/
def mergeQuote (q : Quote) (p : QuotePatch) : Quote :=
  { stock_code := p.stock_code
    name := p.name.getD q.name
    price := p.price.getD q.price
    change := p.change.getD q.change
    change_rate := p.change_rate.getD q.change_rate
    volume := p.volume.getD q.volume
    high := p.high.getD q.high
    low := p.low.getD q.low
    openPrice := p.openPrice.getD q.openPrice
    prev_close := p.prev_close.getD q.prev_close
    timestamp := p.timestamp.getD q.timestamp }

/-- The `stock_update` branch of `handleMessage` (page.tsx lines 44-55):
`prev.findIndex(s => s.stock_code === message.data.stock_code)`; when a
match is found the array is copied and the first matching entry is replaced
by the spread-merge `{ ...updated[idx], ...message.data }`; when no entry
matches, `prev` is returned unchanged.  Updating the first match of a list
is expressed recursively. -/
def handleStockUpdate (prev : List Quote) (p : QuotePatch) : List Quote :=
  match prev with
  | [] => []
  | q :: rest =>
    if q.stock_code = p.stock_code then mergeQuote q p :: rest
    else q :: handleStockUpdate rest p

/-- Signal record kept by the dashboard (`SignalData` in page.tsx). -/
structure SignalData where
  stock_code : String
  stock_name : String
  signal : SignalType
  score : ℚ
  reasons : List String
  timestamp : String
  deriving DecidableEq, Repr

/-- The `signal_alert` branch of `handleMessage` (page.tsx lines 56-59):
`[message, ...prev].slice(0, 10)` prepends the incoming signal and keeps
the first ten entries. -/
def handleSignalAlert (prev : List SignalData) (s : SignalData) : List SignalData :=
  (s :: prev).take 10

/-- Index-filtering `prev.filter((_, i) => i !== idx)` over an arbitrary
element type: pair every element with its index, keep the pairs whose index
differs from `idx`, and forget the indices again. -/
def dismissAt {α : Type} (l : List α) (idx : ℕ) : List α :=
  (l.enum.filter (fun q => q.1 != idx)).map Prod.snd

/-- The signal dismiss handler (page.tsx lines 447-449):
`setSignals(prev => prev.filter((_, i) => i !== idx))`. -/
def dismissSignal (prev : List SignalData) (idx : ℕ) : List SignalData :=
  dismissAt prev idx

/-! ## Order modal (src/frontend/src/components/OrderModal.tsx) -/

/-- Order type enum (`"MARKET" | "LIMIT"`). -/
inductive OrderType
  | MARKET
  | LIMIT
  deriving DecidableEq, Repr

/-- Order request submitted to the injected callback (`OrderRequest` in
OrderModal.tsx): `price` is `none` for market orders. -/
structure OrderRequest where
  stock_code : String
  quantity : ℚ
  price : Option ℚ
  order_type : OrderType
  deriving DecidableEq, Repr

/-- The modal's local form state (`orderType`, `quantity`, `price`,
`error` in OrderModal.tsx). -/
structure ModalForm where
  orderType : OrderType
  quantity : ℚ
  price : ℚ
  error : Option String
  deriving DecidableEq, Repr

/-- What one invocation of `handleSubmit` does before any network call:
either it rejects the form with a validation message (the injected submit
callback is never invoked) or it invokes the callback with an order
request. -/
inductive SubmitStep
  | rejected (errorMsg : String)
  | submitted (req : OrderRequest)
  deriving DecidableEq, Repr

/-- The validation head of `handleSubmit` (OrderModal.tsx lines 59-78):
`if (quantity <= 0) { setError(...); return; }`,
`if (orderType === "LIMIT" && price <= 0) { setError(...); return; }`,
otherwise `onSubmit` is called with the constructed order request. -/
def handleSubmit (quote : Quote) (f : ModalForm) : SubmitStep :=
  if f.quantity ≤ 0 then
    .rejected "수량을 입력해주세요"
  else if f.orderType = .LIMIT ∧ f.price ≤ 0 then
    .rejected "가격을 입력해주세요"
  else
    .submitted
      { stock_code := quote.stock_code
        quantity := f.quantity
        price := if f.orderType = .LIMIT then some f.price else none
        order_type := f.orderType }

/-- The modal's reset effect (OrderModal.tsx lines 34-42): when the modal
is open and a quote is supplied, the effect body sets `quantity := 1`,
`price := quote.price`, `orderType := MARKET` and clears the error;
otherwise the state is left as it was. -/
def resetOnOpen (isOpen : Bool) (quote : Option Quote) (f : ModalForm) : ModalForm :=
  match isOpen, quote with
  | true, some q =>
    { f with quantity := 1, price := q.price, orderType := .MARKET, error := none }
  | _, _ => f

/-! ## WebSocket hook (src/frontend/src/hooks/useWebSocket.ts)

The hook is modelled as a state machine.  The state records the
`readyState` of every `WebSocket` object the hook has created (in creation
order), which of them `wsRef.current` holds, the `isConnected` flag, and
the list of frames actually sent.  Events are either calls of the hook's
exposed functions or the browser firing a socket's `onopen`/`onclose`
handler. -/

/-- Browser `WebSocket.readyState`, restricted to the values the model
needs (`CLOSING` is folded into `closed`; both compare unequal to `OPEN`,
which is all the hook inspects). -/
inductive ReadyState
  | connecting
  | opened
  | closed
  deriving DecidableEq, Repr

/-- Outbound frames built by the hook's convenience wrappers
(`subscribe`, `unsubscribe`, `subscribeChannel`); each wrapper normalises
its argument to an array before sending. -/
inductive OutMsg
  | subscribeMsg (stock_codes : List String)
  | unsubscribeMsg (stock_codes : List String)
  | subscribeChannelMsg (channels : List String)
  deriving DecidableEq, Repr

/-- State of one run of the hook.  `sockets i` is the `readyState` of the
`i`-th socket created by `connect`; `wsRef` is the index held by
`wsRef.current` (`none` before the first `connect` and after
`disconnect`); `sent` lists every frame sent, tagged with the sending
socket's index. -/
structure HookState where
  sockets : List ReadyState
  wsRef : Option ℕ
  isConnected : Bool
  sent : List (ℕ × OutMsg)
  deriving DecidableEq, Repr

/-- The hook before any event: no socket created, not connected. -/
def initHook : HookState :=
  { sockets := [], wsRef := none, isConnected := false, sent := [] }

/-- The `readyState` of the socket currently held by `wsRef.current`
(`wsRef.current?.readyState`). -/
def currentReadyState (s : HookState) : Option ReadyState :=
  s.wsRef.bind (fun i => s.sockets[i]?)

/-- `sendMessage` (useWebSocket.ts lines 60-64): the frame is sent only
when `wsRef.current?.readyState === WebSocket.OPEN`; otherwise nothing
happens (no queuing). -/
def sendMessage (s : HookState) (m : OutMsg) : HookState :=
  match s.wsRef with
  | some i =>
    if s.sockets[i]? = some .opened then { s with sent := s.sent ++ [(i, m)] }
    else s
  | none => s

/-- Events driving the hook: its exposed calls plus the browser firing a
given socket's `onopen` or `onclose` handler. -/
inductive HookEvent
  | connectCall
  | disconnectCall
  | socketOpen (i : ℕ)
  | socketClose (i : ℕ)
  | subscribeCall (stock_codes : List String)
  | unsubscribeCall (stock_codes : List String)
  | subscribeChannelCall (channels : List String)
  deriving DecidableEq, Repr

/-- One step of the hook.

* `connectCall` (lines 22-52): returns immediately when the current
  socket's `readyState` is `OPEN`; otherwise a fresh socket is created in
  the `CONNECTING` state and stored in `wsRef` — the previous socket, if
  any, is neither closed nor remembered.
* `disconnectCall` (lines 54-58): closes the current socket, clears
  `wsRef` and the connected flag.
* `socketOpen i`: the browser completes socket `i`'s handshake (only a
  `CONNECTING` socket can open); its `onopen` handler (lines 27-30) sets
  `isConnected := true`.
* `socketClose i`: socket `i` closes (only a non-closed socket can
  close); its `onclose` handler (lines 32-35) sets `isConnected := false`.
* the three send wrappers (lines 66-94) delegate to `sendMessage`. -/
def hookStep (s : HookState) : HookEvent → HookState
  | .connectCall =>
    if currentReadyState s = some .opened then s
    else { s with sockets := s.sockets ++ [.connecting], wsRef := some s.sockets.length }
  | .disconnectCall =>
    { s with
      sockets := match s.wsRef with
        | some i => s.sockets.set i .closed
        | none => s.sockets
      wsRef := none
      isConnected := false }
  | .socketOpen i =>
    if s.sockets[i]? = some .connecting then
      { s with sockets := s.sockets.set i .opened, isConnected := true }
    else s
  | .socketClose i =>
    if s.sockets[i]? = some .connecting ∨ s.sockets[i]? = some .opened then
      { s with sockets := s.sockets.set i .closed, isConnected := false }
    else s
  | .subscribeCall codes => sendMessage s (.subscribeMsg codes)
  | .unsubscribeCall codes => sendMessage s (.unsubscribeMsg codes)
  | .subscribeChannelCall chans => sendMessage s (.subscribeChannelMsg chans)

/-- Run the hook over a list of events. -/
def runHook (s : HookState) (es : List HookEvent) : HookState :=
  es.foldl hookStep s

/-- At most one of the sockets created by the hook is currently open. -/
def atMostOneOpen (s : HookState) : Prop :=
  ∀ i j : ℕ, s.sockets[i]? = some ReadyState.opened →
    s.sockets[j]? = some ReadyState.opened → i = j

/-- No socket of the state is mid-handshake. -/
def noConnecting (s : HookState) : Prop :=
  ∀ r ∈ s.sockets, r ≠ .connecting

/-- A trace is handshake-safe from `s` when every `connect()` call in it
is issued in a state with no socket still mid-handshake. -/
def SafeFrom (s : HookState) : List HookEvent → Prop
  | [] => True
  | e :: es => (e = .connectCall → noConnecting s) ∧ SafeFrom (hookStep s e) es

/-! ## Backtest page (src/frontend/src/app/backtest/page.tsx)

`Math.random()` is modelled by an explicit stream `rnd : ℕ → ℚ` of draws
in call order (two draws per equity-curve point), and
`new Date(2024, 0, 1 + i).toISOString()` by an explicit day-to-string map
`isoDate : ℕ → String`; both are parameters of the model. -/

/-- Trade side (`"BUY" | "SELL"`). -/
inductive Side
  | BUY
  | SELL
  deriving DecidableEq, Repr

/-- A closed trade (`Trade` in types/index.ts). -/
structure Trade where
  trade_id : String
  stock_code : String
  stock_name : String
  side : Side
  quantity : ℚ
  entry_price : ℚ
  exit_price : ℚ
  pnl : ℚ
  pnl_rate : ℚ
  commission : ℚ
  exit_reason : String
  entry_time : String
  exit_time : String
  deriving DecidableEq, Repr

/-- Backtest configuration (`BacktestConfig` in types/index.ts). -/
structure BacktestConfig where
  stock_codes : List String
  start_date : String
  end_date : String
  initial_capital : ℚ
  trading_style : TradingStyle
  commission_rate : ℚ
  slippage_rate : ℚ
  max_position_size : ℚ
  max_positions : ℚ
  deriving DecidableEq, Repr

/-- Performance block of a backtest result. -/
structure BacktestPerformance where
  final_equity : ℚ
  total_return : ℚ
  total_pnl : ℚ
  max_drawdown : ℚ
  deriving DecidableEq, Repr

/-- The `profit_factor` field is typed `number | string` in
types/index.ts. -/
inductive NumOrStr
  | num (x : ℚ)
  | str (s : String)
  deriving DecidableEq, Repr

/-- Trade-statistics block of a backtest result. -/
structure BacktestTradeStats where
  total_trades : ℚ
  winning_trades : ℚ
  losing_trades : ℚ
  win_rate : ℚ
  avg_win : ℚ
  avg_loss : ℚ
  profit_factor : NumOrStr
  deriving DecidableEq, Repr

/-- One point of the equity curve. -/
structure EquityPoint where
  timestamp : String
  equity : ℚ
  cash : ℚ
  position_count : ℚ
  deriving DecidableEq, Repr

/-- Backtest result (`BacktestResult` in types/index.ts). -/
structure BacktestResult where
  config : BacktestConfig
  performance : BacktestPerformance
  trades : BacktestTradeStats
  equity_curve : List EquityPoint
  trade_history : List Trade
  deriving DecidableEq, Repr

/-- The hardcoded `mockResult` of backtest/page.tsx lines 9-43.  Point `i`
of the equity curve draws `Math.random()` twice, first for `equity`
(draw `2*i`) and then for `position_count` (draw `2*i+1`). -/
def mockResult (rnd : ℕ → ℚ) (isoDate : ℕ → String) : BacktestResult :=
  { config :=
      { stock_codes := ["005930", "000660", "035420"]
        start_date := "2024-01-01"
        end_date := "2024-12-31"
        initial_capital := 10000000
        trading_style := .DAYTRADING
        commission_rate := 0.00015
        slippage_rate := 0.001
        max_position_size := 0.2
        max_positions := 5 }
    performance :=
      { final_equity := 12850000
        total_return := 28.5
        total_pnl := 2850000
        max_drawdown := 8.5 }
    trades :=
      { total_trades := 156
        winning_trades := 98
        losing_trades := 58
        win_rate := 62.8
        avg_win := 45000
        avg_loss := -28000
        profit_factor := .num 2.15 }
    equity_curve :=
      (List.range 252).map (fun i =>
        { timestamp := isoDate i
          equity := 10000000 + ((rnd (2 * i) * 3000000).floor : ℚ) + (i : ℚ) * 10000
          cash := 5000000
          position_count := ((rnd (2 * i + 1) * 5).floor : ℚ) })
    trade_history := [] }

/-- The page state touched by `runBacktest` (backtest/page.tsx):
`result`, `isRunning` and `progress`. -/
structure BacktestPageState where
  result : Option BacktestResult
  isRunning : Bool
  progress : ℚ
  deriving DecidableEq, Repr

/-- `runBacktest` when `backtestApi.runAsync` throws (backtest/page.tsx
lines 62-115): the function first sets `isRunning := true`,
`progress := 0`, `result := null`; the `catch` branch then walks
`progress` through `0, 5, ..., 100` (each step after a 100 ms timeout,
not modelled), sets the result to the hardcoded mock and clears the
running flag.  No error state of any kind is recorded. -/
def runBacktestOnError (rnd : ℕ → ℚ) (isoDate : ℕ → String)
    (s : BacktestPageState) : BacktestPageState :=
  let s1 : BacktestPageState := { s with isRunning := true, progress := 0, result := none }
  let s2 := (List.range 21).foldl (fun st k => { st with progress := 5 * (k : ℚ) }) s1
  { s2 with result := some (mockResult rnd isoDate), isRunning := false }

/-! ## Concrete sample data

The two leading entries of the dashboard's fallback stock list
(page.tsx lines 85-111); timestamps are placeholders for the runtime
`new Date().toISOString()` values, which none of the verified logic
inspects. -/

/-- Fallback entry for Samsung Electronics: code `005930`, price `72500`,
change `1500`, change rate `2.11`, previous close `71000`. -/
def samsungQuote : Quote :=
  { stock_code := "005930", name := "삼성전자", price := 72500, change := 1500,
    change_rate := 2.11, volume := 15234567, high := 73000, low := 71500,
    openPrice := 71800, prev_close := 71000, timestamp := "t0" }

/-- Fallback entry for SK Hynix: code `000660`, price `178000`. -/
def hynixQuote : Quote :=
  { stock_code := "000660", name := "SK하이닉스", price := 178000, change := -2000,
    change_rate := -1.11, volume := 3456789, high := 180000, low := 176500,
    openPrice := 179500, prev_close := 180000, timestamp := "t0" }

/-- The `stock_update` payload of the spec's example scenario: code
`005930` carrying `price: 73000` and nothing else. -/
def samsungPricePatch : QuotePatch := QuotePatch.codePrice "005930" 73000

/-- A sample incoming signal record. -/
def sampleSignal : SignalData :=
  { stock_code := "005930", stock_name := "삼성전자", signal := .STRONG_BUY,
    score := 87.5, reasons := ["총점 87.5점"], timestamp := "t1" }

/-- A second sample signal record. -/
def sampleSignal2 : SignalData :=
  { stock_code := "035420", stock_name := "NAVER", signal := .BUY,
    score := 75.2, reasons := [], timestamp := "t2" }

/-! ## C1: stock_update patches the matching entry and leaves the rest -/

/-- C1.  For every well-formed `stock_update` payload, if entry `i` of the
stock list is the first entry whose `stock_code` equals the payload's
`stock_code`, then the handler replaces exactly that entry by the spread
merge `mergeQuote` (fields present in the payload replace the entry's
fields, absent fields are kept) and returns every other entry unchanged,
in order. -/
theorem stockUpdate_patches_first_match (prev : List Quote) (p : QuotePatch)
    (i : ℕ) (qi : Quote) (hget : prev.get? i = some qi)
    (hmatch : qi.stock_code = p.stock_code)
    (hbefore : ∀ q ∈ prev.take i, q.stock_code ≠ p.stock_code) :
    handleStockUpdate prev p = prev.take i ++ mergeQuote qi p :: prev.drop (i + 1) := by
  induction prev generalizing i with
  | nil => simp at hget
  | cons q rest ih =>
    cases i with
    | zero =>
      simp only [List.get?] at hget
      injection hget with hq
      subst hq
      simp [handleStockUpdate, hmatch]
    | succ n =>
      simp only [List.get?] at hget
      have hq : q.stock_code ≠ p.stock_code := by
        apply hbefore
        simp [List.take]
      simp only [handleStockUpdate, if_neg hq, List.take, List.drop, List.cons_append,
        List.cons.injEq, true_and]
      exact ih n hget (fun r hr => hbefore r (by simp [List.take, hr]))

/-- Witness for C1: a `stock_update` for code `005930` applied to the list
`[hynixQuote, samsungQuote]` patches the second entry and keeps the
first. -/
theorem stockUpdate_patches_first_match_witness :
    handleStockUpdate [hynixQuote, samsungQuote] samsungPricePatch =
      [hynixQuote, samsungQuote].take 1 ++
        mergeQuote samsungQuote samsungPricePatch ::
          [hynixQuote, samsungQuote].drop 2 :=
  stockUpdate_patches_first_match [hynixQuote, samsungQuote] samsungPricePatch 1
    samsungQuote rfl (by decide) (by decide)

/-! ## C10: stock_update with no matching entry changes nothing -/

/-- C10.  A `stock_update` payload whose `stock_code` matches no entry of
the current stock list leaves the list entirely unchanged. -/
theorem stockUpdate_no_match_unchanged (prev : List Quote) (p : QuotePatch)
    (h : ∀ q ∈ prev, q.stock_code ≠ p.stock_code) :
    handleStockUpdate prev p = prev := by
  induction prev with
  | nil => rfl
  | cons q rest ih =>
    have hq : q.stock_code ≠ p.stock_code := h q (by simp)
    simp only [handleStockUpdate, if_neg hq, List.cons.injEq, true_and]
    exact ih (fun r hr => h r (by simp [hr]))

/-- Witness for C10: a `stock_update` for the unknown code `999999` leaves
the two-entry fallback list unchanged. -/
theorem stockUpdate_no_match_unchanged_witness :
    handleStockUpdate [hynixQuote, samsungQuote] (QuotePatch.onlyCode "999999") =
      [hynixQuote, samsungQuote] :=
  stockUpdate_no_match_unchanged [hynixQuote, samsungQuote]
    (QuotePatch.onlyCode "999999") (by decide)

/-! ## C2: the signal list is bounded by 10 with the newest first -/

/-- One `signal_alert` step keeps at most ten entries. -/
theorem handleSignalAlert_length_le (prev : List SignalData) (s : SignalData) :
    (handleSignalAlert prev s).length ≤ 10 := by
  simp [handleSignalAlert]

/-- One `signal_alert` step puts the incoming signal at index 0. -/
theorem handleSignalAlert_head (prev : List SignalData) (s : SignalData) :
    (handleSignalAlert prev s).head? = some s := rfl

/-- C2.  Processing any non-empty sequence of `signal_alert` messages from
any starting signal list leaves at most ten entries, and the most recently
received signal is at index 0. -/
theorem signalAlerts_bounded_newest_first (start : List SignalData)
    (ms : List SignalData) (hne : ms ≠ []) :
    (ms.foldl handleSignalAlert start).length ≤ 10 ∧
      (ms.foldl handleSignalAlert start).head? = some (ms.getLast hne) := by
  obtain ⟨ms', m, hms⟩ : ∃ ms' m, ms = ms' ++ [m] :=
    ⟨ms.dropLast, ms.getLast hne, (List.dropLast_append_getLast hne).symm⟩
  subst hms
  rw [List.foldl_append]
  simp only [List.foldl_cons, List.foldl_nil]
  constructor
  · exact handleSignalAlert_length_le _ _
  · rw [handleSignalAlert_head]
    congr 1
    exact (List.getLast_append_singleton ms').symm

/-- Witness for C2: two alerts into an empty list leave two entries
(at most ten) with the second alert first. -/
theorem signalAlerts_bounded_newest_first_witness :
    (([sampleSignal, sampleSignal2] : List SignalData).foldl handleSignalAlert []).length ≤ 10 ∧
      (([sampleSignal, sampleSignal2] : List SignalData).foldl handleSignalAlert []).head? =
        some ([sampleSignal, sampleSignal2].getLast (by decide)) :=
  signalAlerts_bounded_newest_first [] [sampleSignal, sampleSignal2] (by decide)

/-! ## C3: order validation never calls the submit callback -/

/-- C3.  `handleSubmit` with `quantity ≤ 0` never reaches the injected
submit callback: it stops with the quantity validation message.  For a
LIMIT order with `price ≤ 0` the callback is likewise never reached (the
outcome is a rejection, never a submission). -/
theorem orderModal_validation (quote : Quote) (f : ModalForm) :
    (f.quantity ≤ 0 → handleSubmit quote f = .rejected "수량을 입력해주세요") ∧
      (f.orderType = .LIMIT → f.price ≤ 0 →
        ∀ req : OrderRequest, handleSubmit quote f ≠ .submitted req) := by
  constructor
  · intro h
    simp [handleSubmit, if_pos h]
  · intro hL hp req
    by_cases hq : f.quantity ≤ 0
    · simp [handleSubmit, if_pos hq]
    · simp [handleSubmit, if_neg hq, hL, hp]

/-- Witness for C3: a form with quantity 0 is rejected with the quantity
message, and a LIMIT form with price 0 is never submitted. -/
theorem orderModal_validation_witness :
    handleSubmit samsungQuote
        { orderType := .MARKET, quantity := 0, price := 72500, error := none } =
      .rejected "수량을 입력해주세요" ∧
    handleSubmit samsungQuote
        { orderType := .LIMIT, quantity := 5, price := 0, error := none } ≠
      .submitted { stock_code := "005930", quantity := 5, price := some 0,
                   order_type := .LIMIT } :=
  ⟨(orderModal_validation samsungQuote _).1 (le_refl 0),
   (orderModal_validation samsungQuote _).2 rfl (le_refl 0) _⟩

/-! ## C6: opening the modal resets quantity and price -/

/-- C6.  Whatever the prior form state, the reset effect that runs when the
modal opens over a quote sets the quantity to 1 and the price to the
quote's current price. -/
theorem orderModal_open_resets (f : ModalForm) (q : Quote) :
    (resetOnOpen true (some q) f).quantity = 1 ∧
      (resetOnOpen true (some q) f).price = q.price :=
  ⟨rfl, rfl⟩

/-! ## C7: dismissing a signal removes exactly that entry -/

/-- An index filter over `enumFrom n` keeps everything when the banned
index is below the range start. -/
theorem enumFrom_filter_lt {α : Type} (l : List α) (n k : ℕ) (h : k < n) :
    (l.enumFrom n).filter (fun q => q.1 != k) = l.enumFrom n := by
  induction l generalizing n with
  | nil => rfl
  | cons a l ih =>
    rw [List.enumFrom_cons, List.filter_cons]
    have hk : (n != k) = true := by
      simp only [bne_iff_ne, ne_eq]
      omega
    rw [if_pos hk, ih (n + 1) (Nat.lt_succ_of_lt h)]

/-- Filtering index `n + i` out of `enumFrom n l` and dropping the indices
again removes exactly the element at position `i`. -/
theorem dismissAt_enumFrom {α : Type} (l : List α) (n i : ℕ) :
    ((l.enumFrom n).filter (fun q => q.1 != (n + i))).map Prod.snd =
      l.take i ++ l.drop (i + 1) := by
  induction l generalizing n i with
  | nil => simp
  | cons a l ih =>
    rw [List.enumFrom_cons, List.filter_cons]
    cases i with
    | zero =>
      have h0 : ((n, a).1 != (n + 0)) = false := by simp
      rw [if_neg (by simp [h0]), enumFrom_filter_lt l (n + 1) (n + 0) (by omega),
        List.enumFrom_map_snd]
      simp
    | succ m =>
      have h1 : ((n, a).1 != (n + (m + 1))) = true := by
        simp only [bne_iff_ne, ne_eq]
        omega
      rw [if_pos h1, List.map_cons]
      have hn : n + (m + 1) = (n + 1) + m := by omega
      rw [hn, ih (n + 1) m]
      simp

/-- C7.  Dismissing the signal at a valid index `i` produces the original
list with exactly the entry at index `i` removed; the relative order of
the remaining entries is preserved. -/
theorem dismissSignal_removes_exactly (prev : List SignalData) (i : ℕ)
    (hi : i < prev.length) :
    dismissSignal prev i = prev.take i ++ prev.drop (i + 1) := by
  have h := dismissAt_enumFrom prev 0 i
  simpa [dismissSignal, dismissAt, List.enum] using h

/-- Witness for C7: dismissing index 0 of a two-signal list leaves exactly
the second signal. -/
theorem dismissSignal_removes_exactly_witness :
    dismissSignal [sampleSignal, sampleSignal2] 0 =
      [sampleSignal, sampleSignal2].take 0 ++ [sampleSignal, sampleSignal2].drop 1 :=
  dismissSignal_removes_exactly [sampleSignal, sampleSignal2] 0 (by decide)

/-! ## C4: the example scenario does not recompute change fields -/

/-- Counterexample to C4.  In the spec's example scenario — the stock list
holds the fallback entry for `005930` (price `72500`, change `1500`,
change rate `2.11`, previous close `71000`) and a `stock_update` carrying
`price: 73000` arrives — the handler does set the price to `73000`, but
the `change` and `change_rate` fields are NOT recomputed from the new
price: they keep their old values `1500` and `2.11`, which differ from
the values recomputed from the new price (`73000 - 71000 = 2000` and
`2000 / 71000 * 100`). -/
theorem stockUpdate_example_counterexample :
    (handleStockUpdate [samsungQuote] samsungPricePatch).head? =
        some (mergeQuote samsungQuote samsungPricePatch) ∧
      (mergeQuote samsungQuote samsungPricePatch).price = 73000 ∧
      (mergeQuote samsungQuote samsungPricePatch).change = 1500 ∧
      (mergeQuote samsungQuote samsungPricePatch).change ≠
        (mergeQuote samsungQuote samsungPricePatch).price -
          (mergeQuote samsungQuote samsungPricePatch).prev_close ∧
      (mergeQuote samsungQuote samsungPricePatch).change_rate = 2.11 ∧
      (mergeQuote samsungQuote samsungPricePatch).change_rate ≠
        ((mergeQuote samsungQuote samsungPricePatch).price -
            (mergeQuote samsungQuote samsungPricePatch).prev_close) /
          (mergeQuote samsungQuote samsungPricePatch).prev_close * 100 := by
  refine ⟨rfl, rfl, rfl, ?_, rfl, ?_⟩ <;>
    norm_num [mergeQuote, samsungQuote, samsungPricePatch, QuotePatch.codePrice,
      QuotePatch.onlyCode]

/-- C4 as amended.  In the example scenario the displayed price becomes
`73000` while every other field of the entry — in particular `change` and
`change_rate` — keeps its previous value: the handler merges only the
fields present in the message payload and recomputes nothing. -/
theorem stockUpdate_example_amended :
    handleStockUpdate [samsungQuote] samsungPricePatch =
      [{ samsungQuote with price := 73000 }] := rfl

/-! ## C9: backtest submission errors fall back to the mock result -/

/-- C9.  Whenever `backtestApi.runAsync` throws, `runBacktest` walks the
progress bar to 100, sets the displayed result to the hardcoded mock
result and clears the running flag.  The resulting page state records no
trace of the failure (it has no error field at all), so the failure is
invisible to the user. -/
theorem backtest_error_fallback (rnd : ℕ → ℚ) (isoDate : ℕ → String)
    (s : BacktestPageState) :
    runBacktestOnError rnd isoDate s =
      { result := some (mockResult rnd isoDate), isRunning := false, progress := 100 } := by
  simp only [runBacktestOnError]
  norm_num [List.range_succ]

/-! ## C5: after onclose, subscribe calls send nothing until connect -/

/-- The current socket reference is closed or absent. -/
def currentGone (s : HookState) : Prop :=
  currentReadyState s = some .closed ∨ s.wsRef = none

/-- A state whose current socket is gone has no open current socket. -/
theorem currentGone_not_open (s : HookState) (h : currentGone s) :
    currentReadyState s ≠ some .opened := by
  rcases h with h | h
  · rw [h]
    intro hc
    cases hc
  · simp [currentReadyState, h]

/-- `sendMessage` never changes the socket list or `wsRef`. -/
theorem sendMessage_frame (s : HookState) (m : OutMsg) :
    (sendMessage s m).sockets = s.sockets ∧ (sendMessage s m).wsRef = s.wsRef := by
  obtain ⟨sk, wr, ic, st⟩ := s
  rcases wr with _ | i
  · exact ⟨rfl, rfl⟩
  · simp only [sendMessage]
    split
    · exact ⟨rfl, rfl⟩
    · exact ⟨rfl, rfl⟩

/-- When the current socket is not open, `sendMessage` is the identity:
nothing is sent and nothing is queued. -/
theorem sendMessage_no_open (s : HookState) (m : OutMsg)
    (h : currentReadyState s ≠ some .opened) : sendMessage s m = s := by
  obtain ⟨sk, wr, ic, st⟩ := s
  rcases wr with _ | i
  · rfl
  · simp only [sendMessage]
    rw [if_neg]
    intro hob
    exact h (by simp [currentReadyState, hob])

/-- Every event except `connectCall` keeps the current socket gone and
sends nothing. -/
theorem hookStep_gone (s : HookState) (e : HookEvent) (he : e ≠ .connectCall)
    (h : currentGone s) :
    currentGone (hookStep s e) ∧ (hookStep s e).sent = s.sent := by
  have hno : currentReadyState s ≠ some .opened := currentGone_not_open s h
  cases e with
  | connectCall => exact absurd rfl he
  | disconnectCall => exact ⟨Or.inr rfl, rfl⟩
  | socketOpen i =>
    by_cases hg : s.sockets[i]? = some .connecting
    · have hstep : hookStep s (.socketOpen i) =
          { s with sockets := s.sockets.set i .opened, isConnected := true } := by
        simp only [hookStep]
        rw [if_pos hg]
      rw [hstep]
      refine ⟨?_, rfl⟩
      rcases h with h | h
      · left
        rcases hw : s.wsRef with _ | k
        · rw [currentReadyState, hw] at h
          cases h
        · have hk : s.sockets[k]? = some .closed := by
            rw [currentReadyState, hw] at h
            exact h
          have hik : i ≠ k := by
            intro hik
            rw [hik, hk] at hg
            cases hg
          simp [currentReadyState, hw, List.getElem?_set_ne hik, hk]
      · exact Or.inr h
    · have hstep : hookStep s (.socketOpen i) = s := by
        simp only [hookStep]
        rw [if_neg hg]
      rw [hstep]
      exact ⟨h, rfl⟩
  | socketClose i =>
    by_cases hg : s.sockets[i]? = some .connecting ∨ s.sockets[i]? = some .opened
    · have hstep : hookStep s (.socketClose i) =
          { s with sockets := s.sockets.set i .closed, isConnected := false } := by
        simp only [hookStep]
        rw [if_pos hg]
      rw [hstep]
      refine ⟨?_, rfl⟩
      rcases h with h | h
      · left
        rcases hw : s.wsRef with _ | k
        · rw [currentReadyState, hw] at h
          cases h
        · have hk : s.sockets[k]? = some .closed := by
            rw [currentReadyState, hw] at h
            exact h
          by_cases hik : i = k
          · subst hik
            have hlt : i < s.sockets.length := by
              rcases List.getElem?_eq_some_iff.mp hk with ⟨hlt, -⟩
              exact hlt
            simp [currentReadyState, hw, List.getElem?_set_eq_of_lt _ hlt]
          · simp [currentReadyState, hw, List.getElem?_set_ne hik, hk]
      · exact Or.inr h
    · have hstep : hookStep s (.socketClose i) = s := by
        simp only [hookStep]
        rw [if_neg hg]
      rw [hstep]
      exact ⟨h, rfl⟩
  | subscribeCall codes =>
    have hstep : hookStep s (.subscribeCall codes) = s :=
      sendMessage_no_open s _ hno
    rw [hstep]
    exact ⟨h, rfl⟩
  | unsubscribeCall codes =>
    have hstep : hookStep s (.unsubscribeCall codes) = s :=
      sendMessage_no_open s _ hno
    rw [hstep]
    exact ⟨h, rfl⟩
  | subscribeChannelCall chans =>
    have hstep : hookStep s (.subscribeChannelCall chans) = s :=
      sendMessage_no_open s _ hno
    rw [hstep]
    exact ⟨h, rfl⟩

/-- Along any `connect`-free trace from a state whose current socket is
gone, the sent list never grows. -/
theorem runHook_gone (es : List HookEvent) (hnc : .connectCall ∉ es) :
    ∀ s : HookState, currentGone s →
      currentGone (runHook s es) ∧ (runHook s es).sent = s.sent := by
  induction es with
  | nil => exact fun s h => ⟨h, rfl⟩
  | cons e es ih =>
    intro s h
    have he : e ≠ .connectCall := fun hh => hnc (hh ▸ List.mem_cons_self e es)
    have hstep := hookStep_gone s e he h
    have hrest := ih (fun hm => hnc (List.mem_cons_of_mem e hm)) (hookStep s e) hstep.1
    exact ⟨hrest.1, hrest.2.trans hstep.2⟩

/-- C5.  When the current socket's `onclose` handler fires, `isConnected`
becomes false, and along any following sequence of events that does not
invoke `connect()` the hook sends nothing: in particular every subsequent
`subscribe` call is a silent no-op (no queuing). -/
theorem onclose_disables_sends (s : HookState) (i : ℕ)
    (href : s.wsRef = some i) (hopen : s.sockets[i]? = some .opened) :
    (hookStep s (.socketClose i)).isConnected = false ∧
      ∀ es : List HookEvent, .connectCall ∉ es →
        (runHook (hookStep s (.socketClose i)) es).sent =
          (hookStep s (.socketClose i)).sent := by
  have hstep : hookStep s (.socketClose i) =
      { s with sockets := s.sockets.set i .closed, isConnected := false } := by
    simp only [hookStep]
    rw [if_pos (Or.inr hopen)]
  constructor
  · rw [hstep]
  · intro es hnc
    have hlt : i < s.sockets.length := by
      rcases List.getElem?_eq_some_iff.mp hopen with ⟨hlt, -⟩
      exact hlt
    have hgone : currentGone (hookStep s (.socketClose i)) := by
      left
      rw [hstep]
      simp [currentReadyState, href, List.getElem?_set_eq_of_lt _ hlt]
    exact (runHook_gone es hnc _ hgone).2

/-- The hook state after a successful `connect` and handshake: one open
socket held by `wsRef`, connected, nothing sent. -/
def connectedHook : HookState :=
  { sockets := [.opened], wsRef := some 0, isConnected := true, sent := [] }

/-- Witness for C5: from a connected hook, after the socket closes, a
`subscribe` call sends nothing. -/
theorem onclose_disables_sends_witness :
    (hookStep connectedHook (.socketClose 0)).isConnected = false ∧
      (runHook (hookStep connectedHook (.socketClose 0))
          [.subscribeCall ["005930"]]).sent =
        (hookStep connectedHook (.socketClose 0)).sent :=
  ⟨(onclose_disables_sends connectedHook 0 rfl rfl).1,
   (onclose_disables_sends connectedHook 0 rfl rfl).2
     [.subscribeCall ["005930"]] (by decide)⟩

/-! ## C8: how many sockets can be open at once -/

/-- The trace that breaks the single-open-socket invariant: `connect()`
is called again while the first socket is still connecting, and the
browser then completes both handshakes. -/
def doubleConnectTrace : List HookEvent :=
  [.connectCall, .connectCall, .socketOpen 0, .socketOpen 1]

/-- Counterexample to C8.  It is not true that every reachable state of
the hook has at most one open socket: after
`connect(); connect(); onopen₀; onopen₁` (the second `connect()` issued
while the first socket is still in `CONNECTING`, which the guard
`readyState === OPEN` does not stop), sockets 0 and 1 are both open —
`connect` replaces `wsRef` without closing the previous socket. -/
theorem hook_single_open_counterexample :
    ¬ ∀ es : List HookEvent, atMostOneOpen (runHook initHook es) := by
  intro h
  have h2 := h doubleConnectTrace
  unfold atMostOneOpen at h2
  exact absurd (h2 0 1 (by decide) (by decide)) (by decide)

/-- Invariant: every non-closed socket is the one currently held by
`wsRef`. -/
def hookInv (s : HookState) : Prop :=
  ∀ (i : ℕ) (r : ReadyState),
    s.sockets[i]? = some r → r ≠ ReadyState.closed → s.wsRef = some i

/-- The invariant holds initially. -/
theorem initHook_inv : hookInv initHook := by
  intro i r h hr
  simp [initHook] at h

/-- The invariant forces at most one open socket. -/
theorem hookInv_atMostOneOpen (s : HookState) (h : hookInv s) : atMostOneOpen s :=
  fun i j hi hj =>
    Option.some.inj
      ((h i ReadyState.opened hi (by decide)).symm.trans
        (h j ReadyState.opened hj (by decide)))

/-- One step preserves the invariant, provided `connect()` is only called
when no socket is mid-handshake. -/
theorem hookStep_inv (s : HookState) (e : HookEvent) (hinv : hookInv s)
    (hsafe : e = .connectCall → noConnecting s) : hookInv (hookStep s e) := by
  cases e with
  | connectCall =>
    by_cases hc : currentReadyState s = some .opened
    · have hstep : hookStep s .connectCall = s := by
        simp only [hookStep]
        rw [if_pos hc]
      rw [hstep]
      exact hinv
    · have hstep : hookStep s .connectCall =
          { s with sockets := s.sockets ++ [.connecting],
                   wsRef := some s.sockets.length } := by
        simp only [hookStep]
        rw [if_neg hc]
      rw [hstep]
      have hall : ∀ (j : ℕ) (r : ReadyState),
          s.sockets[j]? = some r → r = ReadyState.closed := by
        intro j r hj
        by_contra hr
        have hw := hinv j r hj hr
        have hcur : currentReadyState s = some r := by
          simp [currentReadyState, hw, hj]
        have hrc : r ≠ .connecting := hsafe rfl r (List.getElem?_mem hj)
        cases r with
        | connecting => exact hrc rfl
        | opened => exact hc hcur
        | closed => exact hr rfl
      intro j r hj hr
      rcases Nat.lt_trichotomy j s.sockets.length with hlt | heq | hgt
      · rw [List.getElem?_append_left hlt] at hj
        exact absurd (hall j r hj) hr
      · subst heq
        rfl
      · have hnone : (s.sockets ++ [ReadyState.connecting])[j]? = none := by
          apply List.getElem?_eq_none
          simp only [List.length_append, List.length_cons, List.length_nil]
          omega
        rw [hnone] at hj
        cases hj
  | disconnectCall =>
    intro j r hj hr
    exfalso
    rcases hw : s.wsRef with _ | k
    · have hsk : (hookStep s .disconnectCall).sockets = s.sockets := by
        simp only [hookStep]
        rw [hw]
      rw [hsk] at hj
      have := hinv j r hj hr
      rw [hw] at this
      cases this
    · have hsk : (hookStep s .disconnectCall).sockets = s.sockets.set k .closed := by
        simp only [hookStep]
        rw [hw]
      rw [hsk] at hj
      by_cases hjk : k = j
      · subst hjk
        by_cases hk : k < s.sockets.length
        · rw [List.getElem?_set_eq_of_lt _ hk] at hj
          injection hj with hj
          exact hr hj.symm
        · have hnone : (s.sockets.set k .closed)[k]? = none := by
            apply List.getElem?_eq_none
            rw [List.length_set]
            omega
          rw [hnone] at hj
          cases hj
      · rw [List.getElem?_set_ne hjk] at hj
        have := hinv j r hj hr
        rw [hw] at this
        injection this with h
        exact hjk h
  | socketOpen i =>
    by_cases hg : s.sockets[i]? = some .connecting
    · have hstep : hookStep s (.socketOpen i) =
          { s with sockets := s.sockets.set i .opened, isConnected := true } := by
        simp only [hookStep]
        rw [if_pos hg]
      rw [hstep]
      have hwi := hinv i .connecting hg (by decide)
      intro j r hj hr
      by_cases hij : i = j
      · subst hij
        exact hwi
      · rw [List.getElem?_set_ne hij] at hj
        exact hinv j r hj hr
    · have hstep : hookStep s (.socketOpen i) = s := by
        simp only [hookStep]
        rw [if_neg hg]
      rw [hstep]
      exact hinv
  | socketClose i =>
    by_cases hg : s.sockets[i]? = some .connecting ∨ s.sockets[i]? = some .opened
    · have hstep : hookStep s (.socketClose i) =
          { s with sockets := s.sockets.set i .closed, isConnected := false } := by
        simp only [hookStep]
        rw [if_pos hg]
      rw [hstep]
      intro j r hj hr
      by_cases hij : i = j
      · subst hij
        have hlt : i < s.sockets.length := by
          rcases hg with hg | hg <;>
            (rcases List.getElem?_eq_some_iff.mp hg with ⟨hlt, -⟩; exact hlt)
        rw [List.getElem?_set_eq_of_lt _ hlt] at hj
        injection hj with hj
        exact absurd hj.symm hr
      · rw [List.getElem?_set_ne hij] at hj
        exact hinv j r hj hr
    · have hstep : hookStep s (.socketClose i) = s := by
        simp only [hookStep]
        rw [if_neg hg]
      rw [hstep]
      exact hinv
  | subscribeCall codes =>
    intro j r hj hr
    rw [show (hookStep s (.subscribeCall codes)).sockets =
        (sendMessage s (.subscribeMsg codes)).sockets from rfl,
      (sendMessage_frame s (.subscribeMsg codes)).1] at hj
    rw [show (hookStep s (.subscribeCall codes)).wsRef =
        (sendMessage s (.subscribeMsg codes)).wsRef from rfl,
      (sendMessage_frame s (.subscribeMsg codes)).2]
    exact hinv j r hj hr
  | unsubscribeCall codes =>
    intro j r hj hr
    rw [show (hookStep s (.unsubscribeCall codes)).sockets =
        (sendMessage s (.unsubscribeMsg codes)).sockets from rfl,
      (sendMessage_frame s (.unsubscribeMsg codes)).1] at hj
    rw [show (hookStep s (.unsubscribeCall codes)).wsRef =
        (sendMessage s (.unsubscribeMsg codes)).wsRef from rfl,
      (sendMessage_frame s (.unsubscribeMsg codes)).2]
    exact hinv j r hj hr
  | subscribeChannelCall chans =>
    intro j r hj hr
    rw [show (hookStep s (.subscribeChannelCall chans)).sockets =
        (sendMessage s (.subscribeChannelMsg chans)).sockets from rfl,
      (sendMessage_frame s (.subscribeChannelMsg chans)).1] at hj
    rw [show (hookStep s (.subscribeChannelCall chans)).wsRef =
        (sendMessage s (.subscribeChannelMsg chans)).wsRef from rfl,
      (sendMessage_frame s (.subscribeChannelMsg chans)).2]
    exact hinv j r hj hr

/-- The invariant is preserved along every handshake-safe trace. -/
theorem runHook_inv (es : List HookEvent) :
    ∀ s : HookState, hookInv s → SafeFrom s es → hookInv (runHook s es) := by
  induction es with
  | nil => exact fun s h _ => h
  | cons e es ih =>
    intro s h hsafe
    exact ih (hookStep s e) (hookStep_inv s e h hsafe.1) hsafe.2

/-- C8 as amended.  Calling `connect()` while the current socket is
already open is a no-op (no new socket, no state change); and the hook
maintains at most one open socket along every trace in which `connect()`
is never invoked while a socket is still mid-handshake — the
counterexample trace shows the restriction is necessary. -/
theorem hook_connect_noop_and_safe_single_open :
    (∀ s : HookState, currentReadyState s = some .opened →
        hookStep s .connectCall = s) ∧
      ∀ es : List HookEvent, SafeFrom initHook es →
        atMostOneOpen (runHook initHook es) := by
  constructor
  · intro s h
    simp only [hookStep, if_pos h]
  · intro es hsafe
    exact hookInv_atMostOneOpen _ (runHook_inv es initHook initHook_inv hsafe)

/-- Witness for the amended C8: `connect()` on an already-connected hook
changes nothing, and the honest trace `connect(); onopen₀` ends with at
most one open socket. -/
theorem hook_connect_noop_and_safe_single_open_witness :
    hookStep connectedHook .connectCall = connectedHook ∧
      atMostOneOpen (runHook initHook [.connectCall, .socketOpen 0]) :=
  ⟨hook_connect_noop_and_safe_single_open.1 connectedHook rfl,
   hook_connect_noop_and_safe_single_open.2 [.connectCall, .socketOpen 0]
     ⟨fun _ => by simp [noConnecting, initHook],
      fun h => absurd h (by decide), trivial⟩⟩

end WeightedTrader
